import Mathlib

/-!
Verification of the per-call relay state machine of `src/index.js`, the
Twilio media-stream to OpenAI realtime bridge.  The connection-specific
variables, the two message handlers, the interruption routine
(`handleSpeechStartedEvent`), `sendMark`, the session bootstrap and the two
close handlers are embedded as pure functions; inbound traffic is a list of
well-formed events, and each step returns the new state together with the
events sent on each transport, in send order.
-/

/-- Session state: the five connection-specific variables declared at the top
of the media-stream handler (src/index.js lines 74-78): `streamSid`,
`latestMediaTimestamp`, `lastAssistantItem`, `markQueue`,
`responseStartTimestampTwilio`.  JS `null` is modelled as `none`, millisecond
timestamps as `Nat`. -/
structure SessionState where
  streamSid : Option String
  latestMediaTimestamp : Nat
  lastAssistantItem : Option String
  markQueue : List String
  responseStartTimestampTwilio : Option Nat
  deriving DecidableEq

/-- JS truthiness of a nullable string: `null`/`undefined` and `""` are falsy.
Used for `if (streamSid)`, `if (lastAssistantItem)`, `if (response.item_id)`
and the `&& response.delta` part of the delta branch guard. -/
def jsTruthyStr : Option String → Bool
  | none => false
  | some s => s ≠ ""

/-- JS falsiness of a nullable number: `null`/`undefined` and `0` are falsy.
This is the `!responseStartTimestampTwilio` check of the audio-delta branch
(line 197) — note that it treats a stored `0` the same as `null`. -/
def jsFalsyNum : Option Nat → Bool
  | none => true
  | some n => n == 0

/-- Character of the standard base64 alphabet for a six-bit value, by char
code: `A`-`Z`, `a`-`z`, `0`-`9`, `+`, `/`.  Models the encoding table used by
`Buffer.prototype.toString('base64')`. -/
def sextetChar (n : Nat) : Char :=
  Char.ofNat (if n < 26 then 65 + n
    else if n < 52 then 97 + (n - 26)
    else if n < 62 then 48 + (n - 52)
    else if n = 62 then 43 else 47)

/-- Six-bit value of a base64 alphabet character, `none` for every other
character — `Buffer.from(s, 'base64')` skips characters outside the alphabet,
`=` padding included.  Node's decoder also accepts the RFC 4648 §5 URL-safe
alphabet, so `-` (code 45) decodes to 62 and `_` (code 95) to 63 alongside
`+` (43) and `/` (47). -/
def sextetOf (c : Char) : Option Nat :=
  if 65 ≤ c.toNat ∧ c.toNat ≤ 90 then some (c.toNat - 65)
  else if 97 ≤ c.toNat ∧ c.toNat ≤ 122 then some (c.toNat - 97 + 26)
  else if 48 ≤ c.toNat ∧ c.toNat ≤ 57 then some (c.toNat - 48 + 52)
  else if c.toNat = 43 then some 62
  else if c.toNat = 47 then some 63
  else if c.toNat = 45 then some 62
  else if c.toNat = 95 then some 63
  else none

/-- Base64 rendering of a byte list, three bytes to four characters with `=`
padding: `Buffer.prototype.toString('base64')`. -/
def encodeGroups : List Nat → List Char
  | b0 :: b1 :: b2 :: rest =>
      sextetChar (b0 / 4) :: sextetChar ((b0 % 4) * 16 + b1 / 16) ::
        sextetChar ((b1 % 16) * 4 + b2 / 64) :: sextetChar (b2 % 64) ::
          encodeGroups rest
  | [b0, b1] =>
      [sextetChar (b0 / 4), sextetChar ((b0 % 4) * 16 + b1 / 16),
        sextetChar ((b1 % 16) * 4), '=']
  | [b0] =>
      [sextetChar (b0 / 4), sextetChar ((b0 % 4) * 16), '=', '=']
  | [] => []

/-- Bytes from a stream of six-bit values: four sextets give three bytes, a
final group of three sextets gives two bytes, of two gives one byte, of one
gives nothing — the grouping behaviour of `Buffer.from(s, 'base64')`. -/
def groupDecode : List Nat → List Nat
  | s0 :: s1 :: s2 :: s3 :: rest =>
      (s0 * 4 + s1 / 16) :: ((s1 % 16) * 16 + s2 / 4) :: ((s2 % 4) * 64 + s3) ::
        groupDecode rest
  | [s0, s1, s2] => [s0 * 4 + s1 / 16, (s1 % 16) * 16 + s2 / 4]
  | [s0, s1] => [s0 * 4 + s1 / 16]
  | [_] => []
  | [] => []

/-- Bytes of `Buffer.from(s, 'base64')`: skip non-alphabet characters, then
group the sextets into bytes. -/
def decodeChars (cs : List Char) : List Nat :=
  groupDecode (cs.filterMap sextetOf)

/-- Model of `Buffer.from(delta, 'base64').toString('base64')` from the
`response.audio.delta` branch (line 192): decode as base64 and re-encode
canonically. -/
def nodeB64Normalize (s : String) : String :=
  ⟨encodeGroups (decodeChars s.data)⟩

/-- A string is canonical base64 when it is the base64 rendering of some byte
list. -/
def IsCanonicalB64 (s : String) : Prop :=
  ∃ bs : List Nat, (∀ b ∈ bs, b < 256) ∧ s = ⟨encodeGroups bs⟩

/-- Outbound telephony (Twilio) events the handlers can send: `media`, `mark`
and `clear`, each carrying the nullable `streamSid` current at send time. -/
inductive TwilioOut where
  | media (streamSid : Option String) (payload : String)
  | mark (streamSid : Option String) (name : String)
  | clear (streamSid : Option String)
  deriving DecidableEq

/-- Outbound OpenAI events the handlers can send. -/
inductive OpenAiOut where
  | sessionUpdate
  | conversationItemCreate
  | responseCreate
  | inputAudioAppend (audio : String)
  | itemTruncate (itemId : String) (contentIndex : Nat) (audioEndMs : Int)
  deriving DecidableEq

/-- Inbound events the relay reacts to: well-formed Twilio frames (`media`,
`start`, `mark`, anything else) and OpenAI messages (`response.audio.delta`
with nullable `delta` and `item_id`, `input_audio_buffer.speech_started`,
anything else).  Malformed or unrecognized messages are
`twilioOther`/`aiOther`: the source only logs them. -/
inductive InEvent where
  | twilioMedia (timestamp : Nat) (payload : String)
  | twilioStart (streamSid : String)
  | twilioMark
  | twilioOther
  | aiAudioDelta (delta : Option String) (itemId : Option String)
  | aiSpeechStarted
  | aiOther
  deriving DecidableEq

/-- Openness of the two sockets, read by the single readiness check
`openAiWs.readyState === WebSocket.OPEN` and by the close handlers. -/
structure TransportFlags where
  connOpen : Bool
  aiOpen : Bool
  deriving DecidableEq

/-- Result of processing one inbound event: the new session state and the
events sent on each transport, in send order. -/
structure StepOut where
  state : SessionState
  twilioOut : List TwilioOut
  openAiOut : List OpenAiOut
  deriving DecidableEq

/-- `handleSpeechStartedEvent` (src/index.js lines 131-157): under the guard
`markQueue.length > 0 && responseStartTimestampTwilio != null`, compute
`elapsedTime = latestMediaTimestamp - responseStartTimestampTwilio`, send a
`conversation.item.truncate` if `lastAssistantItem` is truthy, send a `clear`
event with the current `streamSid`, and reset `markQueue`,
`lastAssistantItem` and `responseStartTimestampTwilio`.  The source performs
no readiness check before either send. -/
def handleSpeechStartedEvent (s : SessionState) : StepOut :=
  if s.markQueue.length > 0 ∧ s.responseStartTimestampTwilio.isSome then
    let elapsedTime : Int :=
      (s.latestMediaTimestamp : Int) - ((s.responseStartTimestampTwilio.getD 0 : Nat) : Int)
    let truncOut : List OpenAiOut :=
      if jsTruthyStr s.lastAssistantItem then
        [OpenAiOut.itemTruncate (s.lastAssistantItem.getD "") 0 elapsedTime]
      else []
    { state := { s with markQueue := [], lastAssistantItem := none,
                        responseStartTimestampTwilio := none },
      twilioOut := [TwilioOut.clear s.streamSid],
      openAiOut := truncOut }
  else
    { state := s, twilioOut := [], openAiOut := [] }

/-- `sendMark` (lines 160-170): when the passed `streamSid` is truthy, send
one `mark` event named `responsePart` and push one token onto `markQueue`;
otherwise do nothing. -/
def sendMark (s : SessionState) : SessionState × List TwilioOut :=
  if jsTruthyStr s.streamSid then
    ({ s with markQueue := s.markQueue ++ ["responsePart"] },
     [TwilioOut.mark s.streamSid "responsePart"])
  else (s, [])

/-- `sendInitialConversationItem` (lines 110-128): sends
`conversation.item.create` followed by `response.create`.  The source does not
consult the socket's readiness, so the openness argument is unread. -/
def sendInitialConversationItem (_aiOpen : Bool) : List OpenAiOut :=
  [OpenAiOut.conversationItemCreate, OpenAiOut.responseCreate]

/-- `initializeSession` (lines 88-107): sends the `session.update`
configuration and then the opening conversation item.  The source does not
consult the socket's readiness, so the openness argument is unread. -/
def initSession (aiOpen : Bool) : List OpenAiOut :=
  [OpenAiOut.sessionUpdate] ++ sendInitialConversationItem aiOpen

/-- One step of the relay: the dispatch of the two message handlers
(`openAiWs.on('message')`, lines 179-215, and `connection.on('message')`,
lines 218-254) on one well-formed inbound event.  The only readiness check in
either handler is `openAiWs.readyState === WebSocket.OPEN` in the Twilio
`media` branch; every other send is unconditional. -/
def step (f : TransportFlags) (s : SessionState) : InEvent → StepOut
  | .twilioMedia timestamp payload =>
      { state := { s with latestMediaTimestamp := timestamp },
        twilioOut := [],
        openAiOut := if f.aiOpen then [OpenAiOut.inputAudioAppend payload] else [] }
  | .twilioStart sid =>
      { state := { s with streamSid := some sid,
                          responseStartTimestampTwilio := none,
                          latestMediaTimestamp := 0 },
        twilioOut := [], openAiOut := [] }
  | .twilioMark =>
      { state := if s.markQueue.length > 0 then { s with markQueue := s.markQueue.tail }
                 else s,
        twilioOut := [], openAiOut := [] }
  | .twilioOther => { state := s, twilioOut := [], openAiOut := [] }
  | .aiAudioDelta delta itemId =>
      if jsTruthyStr delta then
        let payload := nodeB64Normalize (delta.getD "")
        let mediaOut := TwilioOut.media s.streamSid payload
        let s1 :=
          if jsFalsyNum s.responseStartTimestampTwilio then
            { s with responseStartTimestampTwilio := some s.latestMediaTimestamp }
          else s
        let s2 := if jsTruthyStr itemId then { s1 with lastAssistantItem := itemId } else s1
        let p := sendMark s2
        { state := p.1, twilioOut := mediaOut :: p.2, openAiOut := [] }
      else { state := s, twilioOut := [], openAiOut := [] }
  | .aiSpeechStarted => handleSpeechStartedEvent s
  | .aiOther => { state := s, twilioOut := [], openAiOut := [] }

/-- `connection.on('close')` (lines 257-260): closes the OpenAI socket if it
is still open.  Only the effect on the other transport is modelled. -/
def connectionCloseHandler (f : TransportFlags) : TransportFlags :=
  if f.aiOpen then { f with aiOpen := false } else f

/-- `openAiWs.on('close')` (lines 263-265): the handler only logs; it does not
touch the telephony connection. -/
def openAiCloseHandler (f : TransportFlags) : TransportFlags := f

/-- Initial connection-specific state (lines 74-78). -/
def initState : SessionState :=
  { streamSid := none, latestMediaTimestamp := 0, lastAssistantItem := none,
    markQueue := [], responseStartTimestampTwilio := none }

/-- Result of processing a whole event list: final state and the two
accumulated send traces. -/
structure RunOut where
  state : SessionState
  twilioOut : List TwilioOut
  openAiOut : List OpenAiOut
  deriving DecidableEq

/-- Process a list of inbound events in order, each paired with the socket
openness in effect when it is handled, accumulating both send traces. -/
def run (s : SessionState) : List (TransportFlags × InEvent) → RunOut
  | [] => { state := s, twilioOut := [], openAiOut := [] }
  | (f, e) :: es =>
      let o := step f s e
      let r := run o.state es
      { state := r.state,
        twilioOut := o.twilioOut ++ r.twilioOut,
        openAiOut := o.openAiOut ++ r.openAiOut }

/-- Session states the relay can actually be in: results of processing some
event list from the initial state. -/
def Reachable (s : SessionState) : Prop :=
  ∃ es, (run initState es).state = s

/-- Timestamps of the inbound Twilio `media` events of an event list, in
order. -/
def mediaTimestamps (es : List (TransportFlags × InEvent)) : List Nat :=
  es.filterMap fun p => match p.2 with
    | InEvent.twilioMedia t _ => some t
    | _ => none

/-- Is this inbound event a Twilio `start` event. -/
def isStartEv : InEvent → Bool
  | .twilioStart _ => true
  | _ => false

/-- Is this outbound telephony event a `media` event. -/
def isMediaEv : TwilioOut → Bool
  | .media _ _ => true
  | _ => false

/-- Does this outbound telephony event carry a non-null `streamSid` whenever
it is a `mark` or a `clear`. -/
def sidOk : TwilioOut → Bool
  | .media _ _ => true
  | .mark sid _ => sid.isSome
  | .clear sid => sid.isSome

/-- Is this outbound telephony event a `mark` event. -/
def isMarkOut : TwilioOut → Bool
  | .mark _ _ => true
  | _ => false

/-- Reachability invariant of the relay: a non-empty `markQueue` implies a
non-null `streamSid` (tokens are only pushed under `sendMark`'s truthiness
guard, and `streamSid` is never reset to null). -/
def SidInv (s : SessionState) : Prop :=
  s.markQueue ≠ [] → s.streamSid.isSome

/-- Reachability invariant: `lastAssistantItem` never holds the empty string,
because the delta handler stores `response.item_id` only when it is truthy. -/
def ItemWf (s : SessionState) : Prop :=
  s.lastAssistantItem ≠ some ""

/-- Modelled from the spec, amended: per-event law of `markQueue` — one token
appended per truthy audio delta handled while `streamSid` is truthy, one
popped per mark acknowledgment, emptied by a successful interruption,
untouched otherwise. -/
def markQueueSpec (s : SessionState) : InEvent → List String
  | .aiAudioDelta d _ =>
      if jsTruthyStr d && jsTruthyStr s.streamSid then s.markQueue ++ ["responsePart"]
      else s.markQueue
  | .twilioMark => s.markQueue.tail
  | .aiSpeechStarted =>
      if s.markQueue.length > 0 ∧ s.responseStartTimestampTwilio.isSome then []
      else s.markQueue
  | _ => s.markQueue

/-- Modelled from the spec, amended: number of `mark` events sent on the
telephony transport while handling one event. -/
def markSendSpec (s : SessionState) : InEvent → Nat
  | .aiAudioDelta d _ => if jsTruthyStr d && jsTruthyStr s.streamSid then 1 else 0
  | _ => 0

/-- A mid-playback session state: stream `S1` started, caller clock at 250 ms,
assistant item `I1` in flight since 100 ms, one unacknowledged chunk. -/
def sampleState : SessionState :=
  { streamSid := some "S1", latestMediaTimestamp := 250,
    lastAssistantItem := some "I1", markQueue := ["responsePart"],
    responseStartTimestampTwilio := some 100 }

/-- Event list reaching `sampleState` from the initial state. -/
def esReach : List (TransportFlags × InEvent) :=
  [(⟨true, true⟩, .twilioStart "S1"),
   (⟨true, true⟩, .twilioMedia 100 "pl"),
   (⟨true, true⟩, .aiAudioDelta (some "QQ==") (some "I1")),
   (⟨true, true⟩, .twilioMedia 250 "pl")]

/-- `esReach` followed by a caller speech start: a full interruption. -/
def esInterrupt : List (TransportFlags × InEvent) :=
  esReach ++ [(⟨true, true⟩, .aiSpeechStarted)]

/-- A stream whose first AI delta arrives while the caller clock is still 0,
followed by more caller audio and a second delta of the same utterance. -/
def esRestamp : List (TransportFlags × InEvent) :=
  [(⟨true, true⟩, .twilioStart "S1"),
   (⟨true, true⟩, .aiAudioDelta (some "QQ==") (some "I1")),
   (⟨true, true⟩, .twilioMedia 100 "pl"),
   (⟨true, true⟩, .aiAudioDelta (some "QQ==") none)]

/-- An AI audio delta arriving before any Twilio `start` event. -/
def esNoStart : List (TransportFlags × InEvent) :=
  [(⟨true, true⟩, .aiAudioDelta (some "QQ==") none)]

/-- A started stream followed by one relayed delta. -/
def esMark : List (TransportFlags × InEvent) :=
  [(⟨true, true⟩, .twilioStart "S1"),
   (⟨true, true⟩, .aiAudioDelta (some "QQ==") none)]

/-- Decoding a base64 alphabet character always yields a six-bit value. -/
theorem sextetOf_lt {c : Char} {k : Nat} (h : sextetOf c = some k) : k < 64 := by
  unfold sextetOf at h
  repeat' split at h
  all_goals first
    | exact Option.noConfusion h
    | (injection h with h; omega)

/-- The base64 alphabet table and its inverse agree on six-bit values. -/
theorem sextetOf_sextetChar : ∀ n, n < 64 → sextetOf (sextetChar n) = some n := by
  decide

/-- Padding is skipped by the decoder. -/
theorem sextetOf_pad : sextetOf '=' = none := by decide

/-- Regrouping six-bit values yields bytes. -/
theorem groupDecode_lt :
    ∀ l : List Nat, (∀ x ∈ l, x < 64) → ∀ b ∈ groupDecode l, b < 256 := by
  intro l
  induction l using groupDecode.induct with
  | case1 s0 s1 s2 s3 rest ih =>
      intro h b hb
      simp only [groupDecode, List.mem_cons] at hb
      have h0 := h s0 (by simp)
      have h1 := h s1 (by simp)
      have h2 := h s2 (by simp)
      have h3 := h s3 (by simp)
      rcases hb with hb | hb | hb | hb
      · omega
      · omega
      · omega
      · exact ih (fun x hx => h x (by simp [hx])) b hb
  | case2 s0 s1 s2 =>
      intro h b hb
      simp only [groupDecode, List.mem_cons] at hb
      have h0 := h s0 (by simp)
      have h1 := h s1 (by simp)
      have h2 := h s2 (by simp)
      rcases hb with hb | hb | hb <;> simp_all <;> omega
  | case3 s0 s1 =>
      intro h b hb
      simp only [groupDecode, List.mem_cons] at hb
      have h0 := h s0 (by simp)
      have h1 := h s1 (by simp)
      simp_all
      omega
  | case4 s0 =>
      intro _ b hb
      simp [groupDecode] at hb
  | case5 =>
      intro _ b hb
      simp [groupDecode] at hb

/-- Every byte produced by the decoder model fits in eight bits. -/
theorem decodeChars_lt (cs : List Char) : ∀ b ∈ decodeChars cs, b < 256 := by
  apply groupDecode_lt
  intro x hx
  obtain ⟨c, _, hcx⟩ := List.mem_filterMap.mp hx
  exact sextetOf_lt hcx

/-- Round trip: decoding the base64 rendering of a byte list gives back the
byte list. -/
theorem decode_encode (bs : List Nat) (h : ∀ b ∈ bs, b < 256) :
    decodeChars (encodeGroups bs) = bs := by
  induction bs using encodeGroups.induct with
  | case1 b0 b1 b2 rest ih =>
      have h0 : b0 < 256 := h b0 (by simp)
      have h1 : b1 < 256 := h b1 (by simp)
      have h2 : b2 < 256 := h b2 (by simp)
      have e0 := sextetOf_sextetChar (b0 / 4) (by omega)
      have e1 := sextetOf_sextetChar (b0 % 4 * 16 + b1 / 16) (by omega)
      have e2 := sextetOf_sextetChar (b1 % 16 * 4 + b2 / 64) (by omega)
      have e3 := sextetOf_sextetChar (b2 % 64) (by omega)
      have ihr := ih (fun b hb => h b (by simp [hb]))
      simp only [decodeChars] at ihr ⊢
      simp only [encodeGroups, List.filterMap_cons, e0, e1, e2, e3, groupDecode, ihr,
        List.cons.injEq, and_true]
      omega
  | case2 b0 b1 =>
      have h0 : b0 < 256 := h b0 (by simp)
      have h1 : b1 < 256 := h b1 (by simp)
      have e0 := sextetOf_sextetChar (b0 / 4) (by omega)
      have e1 := sextetOf_sextetChar (b0 % 4 * 16 + b1 / 16) (by omega)
      have e2 := sextetOf_sextetChar (b1 % 16 * 4) (by omega)
      simp only [decodeChars, encodeGroups, List.filterMap_cons, List.filterMap_nil,
        e0, e1, e2, sextetOf_pad, groupDecode, List.cons.injEq, and_true]
      omega
  | case3 b0 =>
      have h0 : b0 < 256 := h b0 (by simp)
      have e0 := sextetOf_sextetChar (b0 / 4) (by omega)
      have e1 := sextetOf_sextetChar (b0 % 4 * 16) (by omega)
      simp only [decodeChars, encodeGroups, List.filterMap_cons, List.filterMap_nil,
        e0, e1, sextetOf_pad, groupDecode, List.cons.injEq, and_true]
      omega
  | case4 => rfl

/-- Normalization is idempotent. -/
theorem nodeB64Normalize_idem (s : String) :
    nodeB64Normalize (nodeB64Normalize s) = nodeB64Normalize s := by
  unfold nodeB64Normalize
  congr 1
  show encodeGroups (decodeChars (encodeGroups (decodeChars s.data)))
      = encodeGroups (decodeChars s.data)
  rw [decode_encode _ (decodeChars_lt _)]

/-- Normalization fixes a string exactly when it is canonical base64. -/
theorem nodeB64Normalize_fixed_iff (s : String) :
    nodeB64Normalize s = s ↔ IsCanonicalB64 s := by
  constructor
  · intro h
    exact ⟨decodeChars s.data, decodeChars_lt _, h.symm⟩
  · rintro ⟨bs, hbs, rfl⟩
    unfold nodeB64Normalize
    congr 1
    show encodeGroups (decodeChars (encodeGroups bs)) = encodeGroups bs
    rw [decode_encode bs hbs]

/-- A non-empty string literal is truthy. -/
theorem jsTruthyStr_some {d : String} (hd : d ≠ "") : jsTruthyStr (some d) = true := by
  simp [jsTruthyStr, hd]

/-- A truthy nullable string is non-null. -/
theorem jsTruthyStr_isSome {o : Option String} (h : jsTruthyStr o = true) :
    o.isSome = true := by
  cases o with
  | none => simp [jsTruthyStr] at h
  | some s => rfl

/-- A truthy nullable string is not the empty string. -/
theorem jsTruthyStr_ne_empty {o : Option String} (h : jsTruthyStr o = true) :
    o ≠ some "" := by
  cases o with
  | none => simp
  | some s =>
      simp only [jsTruthyStr, ne_eq, decide_not, Bool.not_eq_eq_eq_not, Bool.not_true,
        decide_eq_false_iff_not] at h
      simp [h]

/-- The Twilio `mark` acknowledgment branch pops the queue head and does
nothing else. -/
theorem step_twilioMark_eq (f : TransportFlags) (s : SessionState) :
    step f s .twilioMark =
      { state := { s with markQueue := s.markQueue.tail },
        twilioOut := [], openAiOut := [] } := by
  cases s with
  | mk sid lmt lai mq rst =>
      by_cases hq : mq.length > 0
      · simp [step, hq]
      · have hQ : mq = [] := by cases mq <;> simp_all
        simp [step, hQ]

/-- The interruption routine is the identity when its guard fails. -/
theorem hsse_noop (s : SessionState)
    (h : s.markQueue = [] ∨ s.responseStartTimestampTwilio = none) :
    handleSpeechStartedEvent s = { state := s, twilioOut := [], openAiOut := [] } := by
  unfold handleSpeechStartedEvent
  rw [if_neg]
  rintro ⟨hq, hr⟩
  cases h with
  | inl h => simp [h] at hq
  | inr h => simp [h] at hr

/-- The interruption routine under its guard: optional truncate, one clear,
and the three resets. -/
theorem hsse_fire (s : SessionState) (hq : s.markQueue ≠ []) (v : Nat)
    (hrs : s.responseStartTimestampTwilio = some v) :
    handleSpeechStartedEvent s =
      { state := { s with markQueue := [], lastAssistantItem := none,
                          responseStartTimestampTwilio := none },
        twilioOut := [TwilioOut.clear s.streamSid],
        openAiOut :=
          if jsTruthyStr s.lastAssistantItem then
            [OpenAiOut.itemTruncate (s.lastAssistantItem.getD "") 0
              ((s.latestMediaTimestamp : Int) - (v : Int))]
          else [] } := by
  unfold handleSpeechStartedEvent
  rw [if_pos ⟨List.length_pos.mpr hq, by simp [hrs]⟩]
  simp [hrs]

/-- A falsy delta (absent or empty) is skipped entirely. -/
theorem step_delta_skip (f : TransportFlags) (s : SessionState) (delta i : Option String)
    (hd : jsTruthyStr delta = false) :
    step f s (.aiAudioDelta delta i) = { state := s, twilioOut := [], openAiOut := [] } := by
  simp [step, hd]

/-- A truthy delta handled while `streamSid` is truthy: media then mark sent,
`responseStartTimestampTwilio` stamped if falsy, `lastAssistantItem` updated
if the incoming item id is truthy, one token pushed. -/
theorem step_delta_sid (f : TransportFlags) (s : SessionState) (d : String)
    (i : Option String) (hd : d ≠ "") (hsid : jsTruthyStr s.streamSid = true) :
    step f s (.aiAudioDelta (some d) i) =
      { state :=
          { s with
            lastAssistantItem := if jsTruthyStr i then i else s.lastAssistantItem,
            markQueue := s.markQueue ++ ["responsePart"],
            responseStartTimestampTwilio :=
              if jsFalsyNum s.responseStartTimestampTwilio then some s.latestMediaTimestamp
              else s.responseStartTimestampTwilio },
        twilioOut := [TwilioOut.media s.streamSid (nodeB64Normalize d),
                      TwilioOut.mark s.streamSid "responsePart"],
        openAiOut := [] } := by
  by_cases hrst : jsFalsyNum s.responseStartTimestampTwilio <;>
    by_cases hi : jsTruthyStr i <;>
      simp [step, sendMark, jsTruthyStr_some hd, hsid, hrst, hi]

/-- A truthy delta handled while `streamSid` is falsy: the media event is
still sent, but no mark event and no queue push. -/
theorem step_delta_nosid (f : TransportFlags) (s : SessionState) (d : String)
    (i : Option String) (hd : d ≠ "") (hsid : jsTruthyStr s.streamSid = false) :
    step f s (.aiAudioDelta (some d) i) =
      { state :=
          { s with
            lastAssistantItem := if jsTruthyStr i then i else s.lastAssistantItem,
            responseStartTimestampTwilio :=
              if jsFalsyNum s.responseStartTimestampTwilio then some s.latestMediaTimestamp
              else s.responseStartTimestampTwilio },
        twilioOut := [TwilioOut.media s.streamSid (nodeB64Normalize d)],
        openAiOut := [] } := by
  by_cases hrst : jsFalsyNum s.responseStartTimestampTwilio <;>
    by_cases hi : jsTruthyStr i <;>
      simp [step, sendMark, jsTruthyStr_some hd, hsid, hrst, hi]

/-- One step preserves the non-null-sid invariant. -/
theorem step_SidInv (f : TransportFlags) (s : SessionState) (e : InEvent)
    (h : SidInv s) : SidInv (step f s e).state := by
  cases e with
  | twilioMedia t p => exact h
  | twilioStart sid => exact fun _ => rfl
  | twilioMark =>
      rw [step_twilioMark_eq]
      intro hne
      refine h fun hQ => ?_
      simp [hQ] at hne
  | twilioOther => exact h
  | aiOther => exact h
  | aiSpeechStarted =>
      show SidInv (handleSpeechStartedEvent s).state
      rcases hrs : s.responseStartTimestampTwilio with _ | v
      · rw [hsse_noop s (Or.inr hrs)]; exact h
      · by_cases hq : s.markQueue = []
        · rw [hsse_noop s (Or.inl hq)]; exact h
        · rw [hsse_fire s hq v hrs]
          intro hne
          exact absurd rfl hne
  | aiAudioDelta delta i =>
      rcases delta with _ | d
      · rw [step_delta_skip f s none i rfl]; exact h
      · by_cases hd : d = ""
        · rw [step_delta_skip f s (some d) i (by simp [jsTruthyStr, hd])]
          exact h
        · by_cases hsid : jsTruthyStr s.streamSid = true
          · rw [step_delta_sid f s d i hd hsid]
            exact fun _ => jsTruthyStr_isSome hsid
          · have hsidf : jsTruthyStr s.streamSid = false := by
              cases hB : jsTruthyStr s.streamSid
              · rfl
              · exact absurd hB hsid
            rw [step_delta_nosid f s d i hd hsidf]
            exact h

/-- One step preserves well-formedness of `lastAssistantItem`. -/
theorem step_ItemWf (f : TransportFlags) (s : SessionState) (e : InEvent)
    (h : ItemWf s) : ItemWf (step f s e).state := by
  cases e with
  | twilioMedia t p => exact h
  | twilioStart sid => exact h
  | twilioMark => rw [step_twilioMark_eq]; exact h
  | twilioOther => exact h
  | aiOther => exact h
  | aiSpeechStarted =>
      show ItemWf (handleSpeechStartedEvent s).state
      rcases hrs : s.responseStartTimestampTwilio with _ | v
      · rw [hsse_noop s (Or.inr hrs)]; exact h
      · by_cases hq : s.markQueue = []
        · rw [hsse_noop s (Or.inl hq)]; exact h
        · rw [hsse_fire s hq v hrs]
          simp [ItemWf]
  | aiAudioDelta delta i =>
      rcases delta with _ | d
      · rw [step_delta_skip f s none i rfl]; exact h
      · by_cases hd : d = ""
        · rw [step_delta_skip f s (some d) i (by simp [jsTruthyStr, hd])]
          exact h
        · by_cases hsid : jsTruthyStr s.streamSid = true
          · rw [step_delta_sid f s d i hd hsid]
            unfold ItemWf
            dsimp only
            split
            · next hi => exact jsTruthyStr_ne_empty hi
            · exact h
          · have hsidf : jsTruthyStr s.streamSid = false := by
              cases hB : jsTruthyStr s.streamSid
              · rfl
              · exact absurd hB hsid
            rw [step_delta_nosid f s d i hd hsidf]
            unfold ItemWf
            dsimp only
            split
            · next hi => exact jsTruthyStr_ne_empty hi
            · exact h

/-- Every telephony event sent during one step from an invariant-respecting
state carries a non-null sid when it is a mark or a clear. -/
theorem step_sidOk (f : TransportFlags) (s : SessionState) (e : InEvent)
    (h : SidInv s) : ∀ ev ∈ (step f s e).twilioOut, sidOk ev = true := by
  cases e with
  | twilioMedia t p => intro ev hev; simp [step] at hev
  | twilioStart sid => intro ev hev; simp [step] at hev
  | twilioMark => intro ev hev; rw [step_twilioMark_eq] at hev; simp at hev
  | twilioOther => intro ev hev; simp [step] at hev
  | aiOther => intro ev hev; simp [step] at hev
  | aiSpeechStarted =>
      intro ev hev
      simp only [step] at hev
      rcases hrs : s.responseStartTimestampTwilio with _ | v
      · rw [hsse_noop s (Or.inr hrs)] at hev
        simp at hev
      · by_cases hq : s.markQueue = []
        · rw [hsse_noop s (Or.inl hq)] at hev
          simp at hev
        · rw [hsse_fire s hq v hrs] at hev
          simp at hev
          subst hev
          simp [sidOk, h hq]
  | aiAudioDelta delta i =>
      intro ev hev
      rcases delta with _ | d
      · rw [step_delta_skip f s none i rfl] at hev; simp at hev
      · by_cases hd : d = ""
        · rw [step_delta_skip f s (some d) i (by simp [jsTruthyStr, hd])] at hev
          simp at hev
        · by_cases hsid : jsTruthyStr s.streamSid = true
          · rw [step_delta_sid f s d i hd hsid] at hev
            simp at hev
            rcases hev with hev | hev <;> subst hev <;>
              simp [sidOk, jsTruthyStr_isSome hsid]
          · have hsidf : jsTruthyStr s.streamSid = false := by
              cases hB : jsTruthyStr s.streamSid
              · rfl
              · exact absurd hB hsid
            rw [step_delta_nosid f s d i hd hsidf] at hev
            simp at hev
            subst hev
            rfl

/-- Runs preserve the non-null-sid invariant. -/
theorem run_SidInv (es : List (TransportFlags × InEvent)) (s : SessionState)
    (h : SidInv s) : SidInv (run s es).state := by
  induction es generalizing s with
  | nil => exact h
  | cons p es ih =>
      obtain ⟨f, e⟩ := p
      exact ih (step f s e).state (step_SidInv f s e h)

/-- Runs preserve well-formedness of `lastAssistantItem`. -/
theorem run_ItemWf (es : List (TransportFlags × InEvent)) (s : SessionState)
    (h : ItemWf s) : ItemWf (run s es).state := by
  induction es generalizing s with
  | nil => exact h
  | cons p es ih =>
      obtain ⟨f, e⟩ := p
      exact ih (step f s e).state (step_ItemWf f s e h)

/-- Every mark or clear event in the telephony trace of a run from an
invariant-respecting state carries a non-null sid. -/
theorem run_sidOk (es : List (TransportFlags × InEvent)) (s : SessionState)
    (h : SidInv s) : ∀ ev ∈ (run s es).twilioOut, sidOk ev = true := by
  induction es generalizing s with
  | nil => intro ev hev; simp [run] at hev
  | cons p es ih =>
      obtain ⟨f, e⟩ := p
      intro ev hev
      simp only [run, List.mem_append] at hev
      rcases hev with hev | hev
      · exact step_sidOk f s e h ev hev
      · exact ih (step f s e).state (step_SidInv f s e h) ev hev

/-- Reachable states respect the non-null-sid invariant. -/
theorem reachable_SidInv {s : SessionState} (h : Reachable s) : SidInv s := by
  obtain ⟨es, rfl⟩ := h
  exact run_SidInv es initState fun hne => absurd rfl hne

/-- Reachable states never hold an empty `lastAssistantItem` string. -/
theorem reachable_ItemWf {s : SessionState} (h : Reachable s) : ItemWf s := by
  obtain ⟨es, rfl⟩ := h
  refine run_ItemWf es initState ?_
  intro hE
  exact Option.noConfusion hE


/-- Before any `start` event, the null `streamSid` keeps the queue empty, so
the only telephony events a run can emit are media events. -/
theorem run_nostart (es : List (TransportFlags × InEvent)) :
    ∀ s : SessionState, s.streamSid = none → s.markQueue = [] →
      (∀ p ∈ es, isStartEv (Prod.snd p) = false) →
      ∀ ev ∈ (run s es).twilioOut, isMediaEv ev = true := by
  induction es with
  | nil => intro s _ _ _ ev hev; simp [run] at hev
  | cons p es ih =>
      obtain ⟨f, e⟩ := p
      intro s hsid hmq hns ev hev
      have hns' : ∀ q ∈ es, isStartEv (Prod.snd q) = false :=
        fun q hq => hns q (List.mem_cons_of_mem _ hq)
      simp only [run, List.mem_append] at hev
      cases e with
      | twilioMedia t pl =>
          rcases hev with hev | hev
          · simp [step] at hev
          · refine ih _ ?_ ?_ hns' ev hev
            · exact hsid
            · exact hmq
      | twilioStart sid2 =>
          have := hns (f, InEvent.twilioStart sid2) (List.mem_cons_self _ _)
          simp [isStartEv] at this
      | twilioMark =>
          rw [step_twilioMark_eq] at hev
          rcases hev with hev | hev
          · simp at hev
          · refine ih _ ?_ ?_ hns' ev hev
            · exact hsid
            · show s.markQueue.tail = []
              simp [hmq]
      | twilioOther =>
          rcases hev with hev | hev
          · simp [step] at hev
          · exact ih s hsid hmq hns' ev hev
      | aiOther =>
          rcases hev with hev | hev
          · simp [step] at hev
          · exact ih s hsid hmq hns' ev hev
      | aiSpeechStarted =>
          simp only [step] at hev
          rw [hsse_noop s (Or.inl hmq)] at hev
          rcases hev with hev | hev
          · simp at hev
          · exact ih s hsid hmq hns' ev hev
      | aiAudioDelta delta i =>
          rcases delta with _ | d
          · rw [step_delta_skip f s none i rfl] at hev
            rcases hev with hev | hev
            · simp at hev
            · exact ih s hsid hmq hns' ev hev
          · by_cases hd : d = ""
            · rw [step_delta_skip f s (some d) i (by simp [jsTruthyStr, hd])] at hev
              rcases hev with hev | hev
              · simp at hev
              · exact ih s hsid hmq hns' ev hev
            · have hsidf : jsTruthyStr s.streamSid = false := by rw [hsid]; rfl
              rw [step_delta_nosid f s d i hd hsidf] at hev
              rcases hev with hev | hev
              · simp at hev
                subst hev
                rfl
              · refine ih _ ?_ ?_ hns' ev hev
                · exact hsid
                · exact hmq

/-- With monotone caller timestamps, every truncate instruction a run emits
carries a non-negative `audio_end_ms`.  The first hypothesis is the step
invariant `responseStartTimestampTwilio ≤ latestMediaTimestamp`; the second
says the caller clock never exceeds any upcoming media timestamp. -/
theorem run_trunc_nonneg (es : List (TransportFlags × InEvent)) :
    ∀ s : SessionState,
      (∀ v, s.responseStartTimestampTwilio = some v → v ≤ s.latestMediaTimestamp) →
      (∀ t ∈ mediaTimestamps es, s.latestMediaTimestamp ≤ t) →
      (mediaTimestamps es).Pairwise (· ≤ ·) →
      ∀ item ci ms, OpenAiOut.itemTruncate item ci ms ∈ (run s es).openAiOut → 0 ≤ ms := by
  induction es with
  | nil => intro s _ _ _ item ci ms h; simp [run] at h
  | cons p es ih =>
      obtain ⟨f, e⟩ := p
      intro s hinv hfut hmono item ci ms hmem
      simp only [run, List.mem_append] at hmem
      cases e with
      | twilioMedia t pl =>
          have hmt : mediaTimestamps ((f, InEvent.twilioMedia t pl) :: es)
              = t :: mediaTimestamps es := rfl
          rcases hmem with hmem | hmem
          · cases hA : f.aiOpen <;> simp [step, hA] at hmem
          · have hle : s.latestMediaTimestamp ≤ t :=
              hfut t (by rw [hmt]; exact List.mem_cons_self _ _)
            rw [hmt] at hmono
            have hpc := List.pairwise_cons.mp hmono
            refine ih _ ?_ ?_ hpc.2 item ci ms hmem
            · intro v hv
              exact le_trans (hinv v hv) hle
            · intro u hu
              exact hpc.1 u hu
      | twilioStart sid2 =>
          rcases hmem with hmem | hmem
          · simp [step] at hmem
          · refine ih _ ?_ ?_ ?_ item ci ms hmem
            · intro v hv
              simp [step] at hv
            · intro u _
              exact Nat.zero_le u
            · exact hmono
      | twilioMark =>
          rw [step_twilioMark_eq] at hmem
          rcases hmem with hmem | hmem
          · simp at hmem
          · refine ih _ ?_ ?_ ?_ item ci ms hmem
            · exact hinv
            · exact hfut
            · exact hmono
      | twilioOther =>
          rcases hmem with hmem | hmem
          · simp [step] at hmem
          · exact ih s hinv hfut hmono item ci ms hmem
      | aiOther =>
          rcases hmem with hmem | hmem
          · simp [step] at hmem
          · exact ih s hinv hfut hmono item ci ms hmem
      | aiSpeechStarted =>
          simp only [step] at hmem
          rcases hrs : s.responseStartTimestampTwilio with _ | v
          · rw [hsse_noop s (Or.inr hrs)] at hmem
            rcases hmem with hmem | hmem
            · simp at hmem
            · exact ih s hinv hfut hmono item ci ms hmem
          · by_cases hq : s.markQueue = []
            · rw [hsse_noop s (Or.inl hq)] at hmem
              rcases hmem with hmem | hmem
              · simp at hmem
              · exact ih s hinv hfut hmono item ci ms hmem
            · rw [hsse_fire s hq v hrs] at hmem
              rcases hmem with hmem | hmem
              · by_cases hi : jsTruthyStr s.lastAssistantItem = true
                · rw [if_pos hi] at hmem
                  simp at hmem
                  obtain ⟨h1, h2, h3⟩ := hmem
                  have hvle := hinv v hrs
                  omega
                · rw [if_neg hi] at hmem
                  simp at hmem
              · refine ih _ ?_ ?_ ?_ item ci ms hmem
                · intro v' hv'
                  simp at hv'
                · exact hfut
                · exact hmono
      | aiAudioDelta delta i =>
          rcases delta with _ | d
          · rw [step_delta_skip f s none i rfl] at hmem
            rcases hmem with hmem | hmem
            · simp at hmem
            · exact ih s hinv hfut hmono item ci ms hmem
          · by_cases hd : d = ""
            · rw [step_delta_skip f s (some d) i (by simp [jsTruthyStr, hd])] at hmem
              rcases hmem with hmem | hmem
              · simp at hmem
              · exact ih s hinv hfut hmono item ci ms hmem
            · by_cases hsid : jsTruthyStr s.streamSid = true
              · rw [step_delta_sid f s d i hd hsid] at hmem
                rcases hmem with hmem | hmem
                · simp at hmem
                · refine ih _ ?_ ?_ ?_ item ci ms hmem
                  · intro v' hv'
                    show v' ≤ s.latestMediaTimestamp
                    by_cases hrst : jsFalsyNum s.responseStartTimestampTwilio = true
                    · rw [if_pos hrst] at hv'
                      injection hv' with hv'
                      omega
                    · rw [if_neg hrst] at hv'
                      exact hinv v' hv'
                  · exact hfut
                  · exact hmono
              · have hsidf : jsTruthyStr s.streamSid = false := by
                  cases hB : jsTruthyStr s.streamSid
                  · rfl
                  · exact absurd hB hsid
                rw [step_delta_nosid f s d i hd hsidf] at hmem
                rcases hmem with hmem | hmem
                · simp at hmem
                · refine ih _ ?_ ?_ ?_ item ci ms hmem
                  · intro v' hv'
                    show v' ≤ s.latestMediaTimestamp
                    by_cases hrst : jsFalsyNum s.responseStartTimestampTwilio = true
                    · rw [if_pos hrst] at hv'
                      injection hv' with hv'
                      omega
                    · rw [if_neg hrst] at hv'
                      exact hinv v' hv'
                  · exact hfut
                  · exact hmono

/-- C1 (counterexample): an AI audio delta arriving before any telephony
`start` event IS sent as a media event, carrying a null `streamSid` — the
delta branch sends unconditionally, so outbound telephony traffic does occur
before `streamIdentifier` is known. -/
theorem relay_prestart_counterexample :
    isStartEv (InEvent.aiAudioDelta (some "QQ==") none) = false
    ∧ (run initState esNoStart).twilioOut = [TwilioOut.media none "QQ=="] := by
  decide

/-- C1 (amended): before `streamIdentifier` has been set by a start event, no
mark and no clear event is sent on the telephony transport — every telephony
event emitted by a start-free run is a media event; media events for AI audio
deltas are sent even then, with a null `streamSid`. -/
theorem relay_prestart_only_media (es : List (TransportFlags × InEvent))
    (hns : ∀ p ∈ es, isStartEv (Prod.snd p) = false) :
    ∀ ev ∈ (run initState es).twilioOut, isMediaEv ev = true :=
  run_nostart es initState rfl rfl hns

/-- C1 witness: the start-free run `esNoStart` emits only media events. -/
theorem relay_prestart_only_media_witness :
    isMediaEv (TwilioOut.media none "QQ==") = true :=
  relay_prestart_only_media esNoStart (by decide) (TwilioOut.media none "QQ==") (by decide)

/-- C2: in every reachable state where the interruption guard holds
(`markQueue` non-empty and `responseStartTimestampTwilio` set), the
speech-started handler empties `markQueue`, unsets `lastAssistantItem` and
`responseStartTimestampTwilio`, sends exactly one truncate instruction on the
AI transport when an assistant item was set (none otherwise), and exactly one
clear instruction on the telephony transport. -/
theorem relay_interrupt_resets (f : TransportFlags) (s : SessionState)
    (hreach : Reachable s) (hq : s.markQueue ≠ [])
    (hrs : s.responseStartTimestampTwilio.isSome = true) :
    (step f s .aiSpeechStarted).state.markQueue = []
    ∧ (step f s .aiSpeechStarted).state.lastAssistantItem = none
    ∧ (step f s .aiSpeechStarted).state.responseStartTimestampTwilio = none
    ∧ (∀ item, s.lastAssistantItem = some item →
        ∃ ms, (step f s .aiSpeechStarted).openAiOut = [OpenAiOut.itemTruncate item 0 ms])
    ∧ (s.lastAssistantItem = none → (step f s .aiSpeechStarted).openAiOut = [])
    ∧ (step f s .aiSpeechStarted).twilioOut = [TwilioOut.clear s.streamSid] := by
  obtain ⟨v, hv⟩ := Option.isSome_iff_exists.mp hrs
  have hstep : step f s .aiSpeechStarted = handleSpeechStartedEvent s := rfl
  rw [hstep, hsse_fire s hq v hv]
  refine ⟨rfl, rfl, rfl, ?_, ?_, rfl⟩
  · intro item hitem
    have hne : item ≠ "" := fun hE => reachable_ItemWf hreach (by rw [hitem, hE])
    exact ⟨(s.latestMediaTimestamp : Int) - (v : Int), by
      simp [hitem, jsTruthyStr_some hne]⟩
  · intro hnone
    simp [hnone, jsTruthyStr]

/-- C2 witness: a concrete reachable mid-playback state, interrupted. -/
theorem relay_interrupt_resets_witness :
    (step ⟨true, true⟩ sampleState .aiSpeechStarted).state.markQueue = []
    ∧ (∃ ms, (step ⟨true, true⟩ sampleState .aiSpeechStarted).openAiOut
        = [OpenAiOut.itemTruncate "I1" 0 ms])
    ∧ (step ⟨true, true⟩ sampleState .aiSpeechStarted).twilioOut
        = [TwilioOut.clear (some "S1")] := by
  have h := relay_interrupt_resets ⟨true, true⟩ sampleState ⟨esReach, by decide⟩
    (by decide) (by decide)
  exact ⟨h.1, h.2.2.2.1 "I1" rfl, h.2.2.2.2.2⟩

/-- C3: when `markQueue` is empty or `responseStartTimestampTwilio` is unset,
the speech-started handler changes none of the five session-state fields and
sends nothing on either transport. -/
theorem relay_interrupt_noop (f : TransportFlags) (s : SessionState)
    (h : s.markQueue = [] ∨ s.responseStartTimestampTwilio = none) :
    step f s .aiSpeechStarted = { state := s, twilioOut := [], openAiOut := [] } :=
  hsse_noop s h

/-- C3 witness: speech started in the initial state is a no-op. -/
theorem relay_interrupt_noop_witness :
    step ⟨true, true⟩ initState .aiSpeechStarted
      = { state := initState, twilioOut := [], openAiOut := [] } :=
  relay_interrupt_noop ⟨true, true⟩ initState (Or.inl rfl)

/-- C4: every truncate instruction the interruption routine emits carries
`audio_end_ms = latestMediaTimestamp - responseStartTimestampTwilio` as they
stand at that moment, and for every event sequence with monotonically
non-decreasing inbound media timestamps every truncate a run emits carries a
non-negative `audio_end_ms`. -/
theorem relay_elapsed_truncate :
    (∀ (s : SessionState) (item : String) (ci : Nat) (ms : Int),
        OpenAiOut.itemTruncate item ci ms ∈ (handleSpeechStartedEvent s).openAiOut →
        ∃ v, s.responseStartTimestampTwilio = some v
          ∧ ms = (s.latestMediaTimestamp : Int) - (v : Int))
    ∧ (∀ es : List (TransportFlags × InEvent),
        (mediaTimestamps es).Pairwise (· ≤ ·) →
        ∀ (item : String) (ci : Nat) (ms : Int),
          OpenAiOut.itemTruncate item ci ms ∈ (run initState es).openAiOut → 0 ≤ ms) := by
  constructor
  · intro s item ci ms hmem
    rcases hrs : s.responseStartTimestampTwilio with _ | v
    · rw [hsse_noop s (Or.inr hrs)] at hmem
      simp at hmem
    · by_cases hq : s.markQueue = []
      · rw [hsse_noop s (Or.inl hq)] at hmem
        simp at hmem
      · rw [hsse_fire s hq v hrs] at hmem
        by_cases hi : jsTruthyStr s.lastAssistantItem = true
        · rw [if_pos hi] at hmem
          simp at hmem
          obtain ⟨h1, h2, h3⟩ := hmem
          exact ⟨v, rfl, h3⟩
        · rw [if_neg hi] at hmem
          simp at hmem
  · intro es hmono item ci ms hmem
    refine run_trunc_nonneg es initState ?_ ?_ hmono item ci ms hmem
    · intro v hv
      simp [initState] at hv
    · intro t _
      exact Nat.zero_le t

/-- C4 witness: the scenario of the spec — stamp at 100 ms, interrupt at
250 ms, truncate at 150 ms, non-negative. -/
theorem relay_elapsed_truncate_witness :
    (∃ v, sampleState.responseStartTimestampTwilio = some v
        ∧ (150 : Int) = (sampleState.latestMediaTimestamp : Int) - (v : Int))
    ∧ (0 : Int) ≤ 150 :=
  ⟨relay_elapsed_truncate.1 sampleState "I1" 0 150 (by decide),
   relay_elapsed_truncate.2 esInterrupt (by decide) "I1" 0 150 (by decide)⟩

/-- C5 (counterexample): when the AI transport has closed while the telephony
transport is still open, the AI-side close handler leaves the telephony
transport open — it only logs. -/
theorem relay_close_counterexample :
    openAiCloseHandler { connOpen := true, aiOpen := false }
      = { connOpen := true, aiOpen := false } := by
  decide

/-- C5 (amended): a telephony-side close always leaves the AI transport
closed, but an AI-side close changes nothing: only one direction of the
mutual-teardown contract is implemented. -/
theorem relay_close_oneway :
    ∀ f : TransportFlags,
      (connectionCloseHandler f).aiOpen = false ∧ openAiCloseHandler f = f := by
  intro f
  refine ⟨?_, rfl⟩
  unfold connectionCloseHandler
  split
  · rfl
  · next hN =>
      simp only [Bool.not_eq_true] at hN
      exact hN

/-- C6 (counterexample): with both sockets closed, a speech start from a
mid-playback state still attempts the truncate send on the AI transport and
the clear send on the telephony transport, and the session bootstrap sends
without any readiness check. -/
theorem relay_guard_counterexample :
    (step ⟨false, false⟩ sampleState .aiSpeechStarted).twilioOut
      = [TwilioOut.clear (some "S1")]
    ∧ (step ⟨false, false⟩ sampleState .aiSpeechStarted).openAiOut
      = [OpenAiOut.itemTruncate "I1" 0 150]
    ∧ initSession false ≠ [] := by
  decide

/-- C6 (amended): only the caller-audio append is guarded by a readiness
check — it is skipped exactly when the AI socket is not open — while every
other handler branch, and the session bootstrap, behaves identically whatever
the socket states are. -/
theorem relay_guard_append_only :
    (∀ (c : Bool) (s : SessionState) (t : Nat) (p : String),
        (step ⟨c, false⟩ s (.twilioMedia t p)).openAiOut = []
        ∧ (step ⟨c, true⟩ s (.twilioMedia t p)).openAiOut = [OpenAiOut.inputAudioAppend p])
    ∧ (∀ (f g : TransportFlags) (s : SessionState) (e : InEvent),
        (∀ t p, e ≠ .twilioMedia t p) → step f s e = step g s e)
    ∧ (∀ b : Bool, initSession b
        = [OpenAiOut.sessionUpdate, OpenAiOut.conversationItemCreate,
           OpenAiOut.responseCreate]) := by
  refine ⟨fun c s t p => ⟨rfl, rfl⟩, ?_, fun b => rfl⟩
  intro f g s e h
  cases e with
  | twilioMedia t p => exact absurd rfl (h t p)
  | twilioStart sid => rfl
  | twilioMark => rfl
  | twilioOther => rfl
  | aiAudioDelta d i => rfl
  | aiSpeechStarted => rfl
  | aiOther => rfl

/-- C6 witness: a skipped append with the AI socket closed, a flag-independent
speech-started step, and the unguarded bootstrap. -/
theorem relay_guard_append_only_witness :
    (step ⟨true, false⟩ initState (.twilioMedia 5 "pp")).openAiOut = []
    ∧ step ⟨true, false⟩ initState .aiSpeechStarted
        = step ⟨false, true⟩ initState .aiSpeechStarted
    ∧ initSession false
        = [OpenAiOut.sessionUpdate, OpenAiOut.conversationItemCreate,
           OpenAiOut.responseCreate] :=
  ⟨(relay_guard_append_only.1 true initState 5 "pp").1,
   relay_guard_append_only.2.1 ⟨true, false⟩ ⟨false, true⟩ initState .aiSpeechStarted
     (fun _ _ h => nomatch h),
   relay_guard_append_only.2.2 false⟩

/-- C7 (code evaluation at the failing input): the first delta of the
utterance stamps `responseStartTimestampTwilio = 0`; after caller audio at
100 ms a second delta of the same utterance overwrites the stamp to 100,
because the falsy check `!responseStartTimestampTwilio` treats the stored 0
as unset. -/
theorem relay_restamp_bug :
    (run initState (esRestamp.take 2)).state.responseStartTimestampTwilio = some 0
    ∧ (run initState esRestamp).state.responseStartTimestampTwilio = some 100 := by
  decide

/-- C8 (counterexample): a delta arriving before the stream starts is relayed
as a media event, yet no mark token is enqueued — the queue length does not
count this relayed chunk. -/
theorem relay_marks_counterexample :
    (run initState esNoStart).twilioOut.countP isMediaEv = 1
    ∧ (run initState esNoStart).state.markQueue.length = 0 := by
  decide

/-- C8 (amended): per-event law of the mark queue — exactly one token pushed
per truthy delta handled while `streamSid` is truthy, which is also exactly
when one mark event is sent; one token popped per acknowledgment; emptied by
a successful interruption; untouched otherwise. -/
theorem relay_marks_law (f : TransportFlags) (s : SessionState) (e : InEvent) :
    (step f s e).state.markQueue = markQueueSpec s e
    ∧ (step f s e).twilioOut.countP isMarkOut = markSendSpec s e := by
  cases e with
  | twilioMedia t p => exact ⟨rfl, rfl⟩
  | twilioStart sid => exact ⟨rfl, rfl⟩
  | twilioMark => rw [step_twilioMark_eq]; exact ⟨rfl, rfl⟩
  | twilioOther => exact ⟨rfl, rfl⟩
  | aiOther => exact ⟨rfl, rfl⟩
  | aiSpeechStarted =>
      rcases hrs : s.responseStartTimestampTwilio with _ | v
      · have hst : step f s .aiSpeechStarted
            = { state := s, twilioOut := [], openAiOut := [] } :=
          hsse_noop s (Or.inr hrs)
        rw [hst]
        constructor
        · show s.markQueue = markQueueSpec s .aiSpeechStarted
          unfold markQueueSpec
          rw [if_neg]
          rintro ⟨-, h2⟩
          rw [hrs] at h2
          simp at h2
        · rfl
      · by_cases hq : s.markQueue = []
        · have hst : step f s .aiSpeechStarted
              = { state := s, twilioOut := [], openAiOut := [] } :=
            hsse_noop s (Or.inl hq)
          rw [hst]
          constructor
          · show s.markQueue = markQueueSpec s .aiSpeechStarted
            unfold markQueueSpec
            rw [if_neg]
            rintro ⟨h1, -⟩
            rw [hq] at h1
            simp at h1
          · rfl
        · have hst : step f s .aiSpeechStarted = _ := hsse_fire s hq v hrs
          rw [hst]
          constructor
          · show ([] : List String) = markQueueSpec s .aiSpeechStarted
            unfold markQueueSpec
            rw [if_pos ⟨List.length_pos.mpr hq, by simp [hrs]⟩]
          · rfl
  | aiAudioDelta delta i =>
      rcases delta with _ | d
      · rw [step_delta_skip f s none i rfl]
        exact ⟨rfl, rfl⟩
      · by_cases hd : d = ""
        · subst hd
          rw [step_delta_skip f s (some "") i (by simp [jsTruthyStr])]
          constructor
          · show s.markQueue = markQueueSpec s (.aiAudioDelta (some "") i)
            simp [markQueueSpec, jsTruthyStr]
          · show (0 : Nat) = markSendSpec s (.aiAudioDelta (some "") i)
            simp [markSendSpec, jsTruthyStr]
        · by_cases hsid : jsTruthyStr s.streamSid = true
          · rw [step_delta_sid f s d i hd hsid]
            constructor
            · simp [markQueueSpec, jsTruthyStr_some hd, hsid]
            · simp [markSendSpec, jsTruthyStr_some hd, hsid, List.countP_cons, isMarkOut]
          · have hsidf : jsTruthyStr s.streamSid = false := by
              cases hB : jsTruthyStr s.streamSid
              · rfl
              · exact absurd hB hsid
            rw [step_delta_nosid f s d i hd hsidf]
            constructor
            · simp [markQueueSpec, jsTruthyStr_some hd, hsidf]
            · simp [markSendSpec, jsTruthyStr_some hd, hsidf, List.countP_cons, isMarkOut]

/-- C9: in every reachable session state a non-empty `markQueue` implies a
non-null `streamSid`, and consequently every mark and every clear event any
run sends on the telephony transport carries a non-null `streamSid`. -/
theorem relay_sid_nonnull :
    (∀ s : SessionState, Reachable s → s.markQueue ≠ [] → s.streamSid.isSome = true)
    ∧ (∀ es : List (TransportFlags × InEvent),
        ∀ ev ∈ (run initState es).twilioOut, sidOk ev = true) := by
  constructor
  · intro s h hne
    exact reachable_SidInv h hne
  · intro es
    exact run_sidOk es initState fun hne => absurd rfl hne

/-- C9 witness: a started stream with one relayed delta — queue non-empty,
sid set, and the sent mark event carries it. -/
theorem relay_sid_nonnull_witness :
    ((run initState esMark).state.streamSid).isSome = true
    ∧ sidOk (TwilioOut.mark (some "S1") "responsePart") = true :=
  ⟨relay_sid_nonnull.1 (run initState esMark).state ⟨esMark, rfl⟩ (by decide),
   relay_sid_nonnull.2 esMark (TwilioOut.mark (some "S1") "responsePart") (by decide)⟩

/-- C10: the payload forwarded for an AI audio delta is the base64
normalization (decode then re-encode) of the delta string; normalization is
idempotent; it fixes exactly the canonical base64 strings; and it is not a
verbatim pass-through in general. -/
theorem relay_payload_normalized :
    (∀ (f : TransportFlags) (s : SessionState) (d : String) (i : Option String),
        d ≠ "" →
        (step f s (.aiAudioDelta (some d) i)).twilioOut.head?
          = some (TwilioOut.media s.streamSid (nodeB64Normalize d)))
    ∧ (∀ x, nodeB64Normalize (nodeB64Normalize x) = nodeB64Normalize x)
    ∧ (∀ x, nodeB64Normalize x = x ↔ IsCanonicalB64 x)
    ∧ nodeB64Normalize "QQ" ≠ "QQ" := by
  refine ⟨?_, nodeB64Normalize_idem, nodeB64Normalize_fixed_iff, by decide⟩
  intro f s d i hd
  by_cases hsid : jsTruthyStr s.streamSid = true
  · rw [step_delta_sid f s d i hd hsid]
    rfl
  · have hsidf : jsTruthyStr s.streamSid = false := by
      cases hB : jsTruthyStr s.streamSid
      · rfl
      · exact absurd hB hsid
    rw [step_delta_nosid f s d i hd hsidf]
    rfl

/-- C10 witness: a non-canonical delta is forwarded normalized, not
verbatim. -/
theorem relay_payload_normalized_witness :
    (step ⟨true, true⟩ initState (.aiAudioDelta (some "QQ") none)).twilioOut.head?
      = some (TwilioOut.media none (nodeB64Normalize "QQ"))
    ∧ nodeB64Normalize "QQ" ≠ "QQ" :=
  ⟨relay_payload_normalized.1 ⟨true, true⟩ initState "QQ" none (by decide),
   relay_payload_normalized.2.2.2⟩
